import Mathlib

/-
  Verification of the binary framing protocol engine of `src/serial.js`
  (class `SerialManager`): checksum, frame encoder, stream decoder with
  resynchronization, payload decoders and the dispatcher / response router.

  Bytes are modelled as `Nat` (the decoder receives them from a `Uint8Array`,
  so every buffer entry is in `0..255`; where a proof needs that bound it is
  an explicit hypothesis).  Buffers are `List Nat`.  JavaScript array indexing
  `a[i]` is modelled by `List.getD a i 0`; all indexing in the source is
  guarded by explicit length checks, so the default is never read.
-/

namespace SerialSpec

/-- `this.FRAME_HEADER = 0xAA` (serial.js line 26). -/
def FRAME_HEADER : Nat := 0xAA

/-- `this.FRAME_TAIL = 0x55` (serial.js line 27). -/
def FRAME_TAIL : Nat := 0x55

/-- `this.MIN_FRAME_LEN = 5` (serial.js line 28). -/
def MIN_FRAME_LEN : Nat := 5

/-- `this.MAX_DATA_LENGTH = 255` (serial.js line 29). -/
def MAX_DATA_LENGTH : Nat := 255

/-- `this.maxBufferSize = 1024` (serial.js line 23). -/
def maxBufferSize : Nat := 1024

/-- `COMMANDS.CMD_SENSOR_DATA = 0x20` (serial.js line 74). -/
def CMD_SENSOR_DATA : Nat := 0x20

/-- `COMMANDS.CMD_MAPPING_DATA = 0x21` (serial.js line 75). -/
def CMD_MAPPING_DATA : Nat := 0x21

/-- `COMMANDS.RESULT_SUCCESS = 0x00` (serial.js line 78). -/
def RESULT_SUCCESS : Nat := 0x00

/-- `COMMANDS.RESULT_FAIL = 0x01` (serial.js line 79). -/
def RESULT_FAIL : Nat := 0x01

/-- `calculateChecksum` (serial.js lines 273-280):
    `sumVal = cmdType + dataLen` plus the sum of `data` (the source guards the
    payload sum with `data.length > 0`, which is the same as adding an empty
    sum of `0`), then `(~sumVal + 1) & 0xFF`.  For the operand sizes that occur
    (sums below `2^31`) JavaScript's 32-bit `~x` is `-x - 1`, and masking the
    resulting negative 32-bit integer with `0xFF` is the nonnegative remainder
    mod 256. -/
def calculateChecksum (cmdType dataLen : Nat) (data : List Nat) : Nat :=
  let sumVal : Int := (cmdType : Int) + (dataLen : Int) + (data.sum : Int)
  ((-sumVal - 1 + 1) % 256).toNat

/-- The frame built by `sendFrame` (serial.js lines 299-321):
    `[FRAME_HEADER, cmdType, dataLen, ...data, checksum, FRAME_TAIL]`.
    (`sendFrame` additionally rejects `data.length > MAX_DATA_LENGTH` before
    building the frame and hands the bytes to the transport writer.) -/
def encodeFrame (cmdType : Nat) (data : List Nat) : List Nat :=
  FRAME_HEADER :: cmdType :: data.length ::
    (data ++ [calculateChecksum cmdType data.length data, FRAME_TAIL])

/-- `findFrameStart` (serial.js lines 477-484): index of the first buffer byte
    equal to `FRAME_HEADER`, `none` for the source's `-1`. -/
def findFrameStart : List Nat → Option Nat
  | [] => none
  | b :: rest =>
    if b = FRAME_HEADER then some 0
    else (findFrameStart rest).map (· + 1)

/-- `tryParseFrame` (serial.js lines 490-546).  The source returns a number
    (`0` = incomplete, `1` = drop the leading header byte, `totalFrameLength`
    = a validated frame was consumed) and dispatches the validated frame as a
    side effect; here the result is that number paired with the validated
    `(cmdType, frameData)` when there is one. -/
def tryParseFrame (buf : List Nat) : Nat × Option (Nat × List Nat) :=
  if buf.length < MIN_FRAME_LEN then (0, none)
  else if buf.getD 0 0 ≠ FRAME_HEADER then (0, none)
  else if buf.length < 3 then (0, none)
  else
    let cmdType := buf.getD 1 0
    let dataLength := buf.getD 2 0
    if dataLength > MAX_DATA_LENGTH then (1, none)
    else
      let totalFrameLength := 5 + dataLength
      if buf.length < totalFrameLength then (0, none)
      else
        let frameData := (buf.drop 3).take dataLength
        let checksum := buf.getD (3 + dataLength) 0
        let frameTail := buf.getD (3 + dataLength + 1) 0
        if frameTail ≠ FRAME_TAIL then (1, none)
        else if calculateChecksum cmdType dataLength frameData ≠ checksum then (1, none)
        else (totalFrameLength, some (cmdType, frameData))

/-- `readBuffer.slice(-n)`: the final `n` bytes of the buffer. -/
def lastBytes (n : Nat) (l : List Nat) : List Nat := l.drop (l.length - n)

/-- Result of one iteration of the `processBuffer` while-loop:
    `stop buf` = the loop exits (`break` or the loop condition fails) leaving
    `buf`; `next buf frame` = the loop continues with `buf`, having dispatched
    `frame` when it is `some`. -/
inductive StepResult where
  | stop (buf : List Nat)
  | next (buf : List Nat) (frame : Option (Nat × List Nat))
deriving DecidableEq

/-- One iteration of the `processBuffer` loop body (serial.js lines 443-469):
    exit when the buffer is empty; when no header is found, exit (truncating
    to the last 10 bytes when more than `maxBufferSize / 2` bytes are held);
    otherwise drop the bytes before the header and run `tryParseFrame`,
    exiting on `0` (incomplete) and otherwise consuming its returned length
    and continuing. -/
def processStep (buf : List Nat) : StepResult :=
  if buf.length = 0 then .stop buf
  else
    match findFrameStart buf with
    | none =>
      if buf.length > maxBufferSize / 2 then .stop (lastBytes 10 buf)
      else .stop buf
    | some frameStart =>
      let b1 := buf.drop frameStart
      let r := tryParseFrame b1
      if r.1 = 0 then .stop b1
      else .next (b1.drop r.1) r.2

/-- `processBuffer` (serial.js lines 442-471): run the loop body until it
    exits, collecting the dispatched frames in order.  Termination: whenever
    the loop continues, `tryParseFrame` returned a nonzero count, so at least
    one byte has been removed from a nonempty buffer. -/
def processBuffer (buf : List Nat) : List Nat × List (Nat × List Nat) :=
  match h : processStep buf with
  | .stop b => (b, [])
  | .next b f =>
    let r := processBuffer b
    (r.1, f.toList ++ r.2)
termination_by buf.length
decreasing_by
  unfold processStep at h
  by_cases h0 : buf.length = 0
  · simp [h0] at h
  · simp only [h0, if_false, ite_false] at h
    cases hf : findFrameStart buf with
    | none =>
      rw [hf] at h
      by_cases hlen : buf.length > maxBufferSize / 2 <;> simp [hlen] at h
    | some k =>
      rw [hf] at h
      simp only at h
      by_cases hr : (tryParseFrame (buf.drop k)).1 = 0
      · simp [hr] at h
      · simp only [hr, if_false, ite_false, StepResult.next.injEq] at h
        have hb : b = (buf.drop k).drop (tryParseFrame (buf.drop k)).1 := h.1.symm
        subst hb
        simp only [List.length_drop]
        omega

/-- `appendToBuffer` (serial.js lines 425-437): when the merged size would
    exceed `maxBufferSize` the held buffer is first reset to empty (a console
    warning is logged; the Boolean records that overflow branch), then the new
    chunk is appended. -/
def appendToBuffer (buf chunk : List Nat) : List Nat × Bool :=
  if buf.length + chunk.length > maxBufferSize then (([] : List Nat) ++ chunk, true)
  else (buf ++ chunk, false)

/-- One pass of the reader loop body for a received chunk (serial.js
    lines 389-395): `appendToBuffer` then `processBuffer`.  Returns the new
    buffer, the validated frames dispatched to `parseFrame`, and whether the
    overflow branch of `appendToBuffer` was taken. -/
def feed (buf chunk : List Nat) : List Nat × List (Nat × List Nat) × Bool :=
  let a := appendToBuffer buf chunk
  let r := processBuffer a.1
  (r.1, r.2, a.2)

/-- Feeding a sequence of chunks one reader-loop pass at a time. -/
def feedAll (chunks : List (List Nat)) (buf : List Nat) :
    List Nat × List (Nat × List Nat) :=
  match chunks with
  | [] => (buf, [])
  | c :: cs =>
    let r1 := feed buf c
    let r2 := feedAll cs r1.1
    (r2.1, r1.2.1 ++ r2.2)

/-- The statistics fields of `SerialManager` (serial.js lines 17-19).
    Times are `Date.now()` millisecond stamps, modelled as `Nat`. -/
structure Stats where
  packetCount : Nat
  lastUpdateTime : Nat
  updateRate : Nat
deriving DecidableEq

/-- `Math.round (1000 / d)` for a positive integer `d`: JavaScript rounds
    half away from zero on this positive range, i.e. `⌊1000 / d + 1 / 2⌋ =
    ⌊(2000 + d) / (2 * d)⌋`; every half-way case (`d` of the form `2000 /
    odd`) is an exact power-of-two-denominator double, so the IEEE-754
    computation agrees with this exact rational rounding. -/
def mathRound1000Over (d : Nat) : Nat := (2000 + d) / (2 * d)

/-- `updateStatistics` (serial.js lines 757-766), with `currentTime` passed
    in place of reading `Date.now()`: `updateRate` becomes
    `Math.round(1000 / timeDiff)` when `timeDiff > 0`, and `lastUpdateTime`
    becomes `currentTime`; `packetCount` is not touched here. -/
def updateStatistics (currentTime : Nat) (s : Stats) : Stats :=
  { s with
    updateRate :=
      if s.lastUpdateTime < currentTime then
        mathRound1000Over (currentTime - s.lastUpdateTime)
      else s.updateRate
    lastUpdateTime := currentTime }

/-- Callback invocations observable from the dispatcher.  `sensorData` /
    `mappingData` model `dataCallback(jointData)` with the fields the claims
    mention (hand byte, decoded values, `packetNumber`; the `timestamp` field
    is the wall clock and carries no protocol content).  `responseOk` /
    `responseError` model `responseCallback('ok' | 'error', cmdType,
    extraData)`.  `errorEvt` models `errorCallback(...)`, which the source
    decode path reaches only inside `catch` blocks (serial.js lines 593-598,
    665-670, 746-751); the embedded total functions never raise, matching the
    fact that the guarded source code never throws there. -/
inductive SerialEvent where
  | sensorData (hand : Nat) (joints : List Nat) (packetNumber : Nat)
  | mappingData (hand : Nat) (valueBits : List Nat) (packetNumber : Nat)
  | responseOk (cmdType : Nat) (extra : List Nat)
  | responseError (cmdType : Nat) (extra : List Nat)
  | errorEvt
deriving DecidableEq

/-- `parseSensorDataFrame` (serial.js lines 605-671): payloads shorter than
    31 bytes are dropped with a console warning; otherwise `hand = data[0]`
    and the 15 joint values are read little-endian,
    `data[1 + i*2] | (data[1 + i*2 + 1] << 8)`, the emitted record carrying
    `packetNumber = this.packetCount++`. -/
def parseSensorDataFrame (data : List Nat) (s : Stats) : Stats × List SerialEvent :=
  if data.length < 31 then (s, [])
  else
    let hand := data.getD 0 0
    let sensorData := (List.range 15).map fun i =>
      Nat.lor (data.getD (1 + i * 2) 0) (Nat.shiftLeft (data.getD (1 + i * 2 + 1) 0) 8)
    ({ s with packetCount := s.packetCount + 1 },
      [SerialEvent.sensorData hand sensorData s.packetCount])

/-- `parseMappingDataFrame` (serial.js lines 677-752): payloads shorter than
    61 bytes are dropped with a console warning; otherwise `hand = data[0]`
    and 15 IEEE-754 binary32 values are read from 4 little-endian bytes at
    `1 + i*4`.  Each value is carried here as its 32-bit little-endian bit
    pattern (the `DataView.getFloat32` reinterpretation of exactly these
    bits); no claim depends on the floating-point reading of the pattern. -/
def parseMappingDataFrame (data : List Nat) (s : Stats) : Stats × List SerialEvent :=
  if data.length < 61 then (s, [])
  else
    let hand := data.getD 0 0
    let mappingData := (List.range 15).map fun i =>
      Nat.lor (data.getD (1 + i * 4) 0)
        (Nat.lor (Nat.shiftLeft (data.getD (1 + i * 4 + 1) 0) 8)
          (Nat.lor (Nat.shiftLeft (data.getD (1 + i * 4 + 2) 0) 16)
            (Nat.shiftLeft (data.getD (1 + i * 4 + 3) 0) 24)))
    ({ s with packetCount := s.packetCount + 1 },
      [SerialEvent.mappingData hand mappingData s.packetCount])

/-- `parseFrame` (serial.js lines 554-599), with `now` passed in place of
    `Date.now()`: statistics are updated first for every validated frame,
    then sensor (0x20) and mapping (0x21) notifications go to the payload
    decoders, and any other command type is a command response whose first
    payload byte is the result code (`RESULT_FAIL` when the payload is
    empty), routed to `responseCallback` as `'ok'` exactly when the code is
    `RESULT_SUCCESS`, with `extraData = data.slice(1)` (empty when the
    payload has at most one byte). -/
def parseFrame (now : Nat) (cmdType : Nat) (data : List Nat) (s : Stats) :
    Stats × List SerialEvent :=
  let s1 := updateStatistics now s
  if cmdType = CMD_SENSOR_DATA then parseSensorDataFrame data s1
  else if cmdType = CMD_MAPPING_DATA then parseMappingDataFrame data s1
  else
    let result := if data.length > 0 then data.getD 0 0 else RESULT_FAIL
    let extraData := if data.length > 1 then data.drop 1 else []
    if result = RESULT_SUCCESS then (s1, [SerialEvent.responseOk cmdType extraData])
    else (s1, [SerialEvent.responseError cmdType extraData])

/-- Dispatching a list of validated frames in order through `parseFrame`,
    threading the statistics. -/
def dispatchFrames (now : Nat) (s : Stats) :
    List (Nat × List Nat) → Stats × List SerialEvent
  | [] => (s, [])
  | (c, d) :: fs =>
    let r1 := parseFrame now c d s
    let r2 := dispatchFrames now r1.1 fs
    (r2.1, r1.2 ++ r2.2)

/-- The whole inbound path for one received chunk: stream decoding (`feed`)
    followed by dispatch of every validated frame.  Returns the new buffer,
    the new statistics, all callback events, and the overflow flag. -/
def feedEvents (now : Nat) (buf chunk : List Nat) (s : Stats) :
    List Nat × Stats × List SerialEvent × Bool :=
  let r := feed buf chunk
  let d := dispatchFrames now s r.2.1
  (r.1, d.1, d.2, r.2.2)

/-- Flipping bit `k` of a byte `b` (the single-bit corruptions considered by
    the corruption-rejection property). -/
def flipBit (b k : Nat) : Nat := b ^^^ (1 <<< k)

/-- A frame with the byte at index `j` replaced by that byte with bit `k`
    flipped. -/
def corruptAt (frame : List Nat) (j k : Nat) : List Nat :=
  frame.set j (flipBit (frame.getD j 0) k)

/-! ## Helper lemmas -/

theorem calculateChecksum_lt (c L : Nat) (d : List Nat) :
    calculateChecksum c L d < 256 := by
  simp only [calculateChecksum]
  omega

theorem calculateChecksum_closed (c L : Nat) (d : List Nat) :
    calculateChecksum c L d = (256 - (c + L + d.sum) % 256) % 256 := by
  simp only [calculateChecksum]
  omega

theorem calculateChecksum_sum_mod (c L : Nat) (d : List Nat) :
    (c + L + d.sum + calculateChecksum c L d) % 256 = 0 := by
  simp only [calculateChecksum]
  omega

theorem encodeFrame_length (c : Nat) (d : List Nat) :
    (encodeFrame c d).length = 5 + d.length := by
  simp only [encodeFrame, List.length_cons, List.length_append, List.length_cons,
    List.length_nil]
  omega

theorem encodeFrame_cons (c : Nat) (d rest : List Nat) :
    encodeFrame c d ++ rest
      = FRAME_HEADER :: c :: d.length ::
          (d ++ calculateChecksum c d.length d :: FRAME_TAIL :: rest) := by
  simp [encodeFrame]

/-- `tryParseFrame` on a buffer that begins with a well-formed encoded frame
    validates and returns exactly that frame. -/
theorem tryParseFrame_frame (c : Nat) (d rest : List Nat) (h255 : d.length ≤ 255) :
    tryParseFrame (encodeFrame c d ++ rest) = (5 + d.length, some (c, d)) := by
  rw [encodeFrame_cons]
  set L := d.length with hL
  set ck := calculateChecksum c L d with hck
  set t : List Nat := d ++ ck :: FRAME_TAIL :: rest with hT
  have hlen : (FRAME_HEADER :: c :: L :: t).length = L + rest.length + 5 := by
    simp [hT, List.length_append]
    omega
  have e0 : (FRAME_HEADER :: c :: L :: t).getD 0 0 = FRAME_HEADER := rfl
  have e1 : (FRAME_HEADER :: c :: L :: t).getD 1 0 = c := rfl
  have e2 : (FRAME_HEADER :: c :: L :: t).getD 2 0 = L := rfl
  have e3 : (FRAME_HEADER :: c :: L :: t).drop 3 = t := rfl
  have eck : (FRAME_HEADER :: c :: L :: t).getD (3 + L) 0 = ck := by
    rw [Nat.add_comm 3 L]
    show t.getD L 0 = ck
    rw [hT, List.getD_append_right d _ 0 L (by omega)]
    simp [hL]
  have etail : (FRAME_HEADER :: c :: L :: t).getD (3 + L + 1) 0 = FRAME_TAIL := by
    have : 3 + L + 1 = (L + 1) + 3 := by omega
    rw [this]
    show t.getD (L + 1) 0 = FRAME_TAIL
    rw [hT, List.getD_append_right d _ 0 (L + 1) (by omega)]
    simp [hL]
  have edata : (t.take L) = d := by
    rw [hT, hL, List.take_left]
  unfold tryParseFrame
  dsimp only
  rw [e0, e1, e2, e3, eck, etail, hlen, edata]
  rw [if_neg (by simp only [MIN_FRAME_LEN]; omega)]
  rw [if_neg (by simp)]
  rw [if_neg (by omega)]
  rw [if_neg (by simp only [MAX_DATA_LENGTH, gt_iff_lt]; omega)]
  rw [if_neg (by omega)]
  rw [if_neg (by simp)]
  rw [if_neg (by simp [hck])]

theorem processBuffer_stop {buf b : List Nat} (h : processStep buf = .stop b) :
    processBuffer buf = (b, []) := by
  rw [processBuffer]
  split
  · rename_i b2 heq
    rw [h] at heq
    injection heq with hb
    rw [hb]
  · rename_i b2 f2 heq
    rw [h] at heq
    cases heq

theorem processBuffer_next {buf b : List Nat} {f : Option (Nat × List Nat)}
    (h : processStep buf = .next b f) :
    processBuffer buf = ((processBuffer b).1, f.toList ++ (processBuffer b).2) := by
  rw [processBuffer]
  split
  · rename_i b2 heq
    rw [h] at heq
    cases heq
  · rename_i b2 f2 heq
    rw [h] at heq
    injection heq with hb hf
    rw [hb, hf]

theorem processBuffer_nil : processBuffer [] = ([], []) :=
  processBuffer_stop (by simp [processStep])

theorem processStep_frame (c : Nat) (d rest : List Nat) (h255 : d.length ≤ 255) :
    processStep (encodeFrame c d ++ rest) = .next rest (some (c, d)) := by
  have hlen : (encodeFrame c d ++ rest).length = 5 + d.length + rest.length := by
    simp [List.length_append, encodeFrame_length]
  have hf : findFrameStart (encodeFrame c d ++ rest) = some 0 := by
    rw [encodeFrame_cons]
    simp [findFrameStart]
  have hdrop : (encodeFrame c d ++ rest).drop (5 + d.length) = rest := by
    rw [← encodeFrame_length c d]
    exact List.drop_left _ _
  unfold processStep
  rw [if_neg (show ¬(encodeFrame c d ++ rest).length = 0 by rw [hlen]; omega)]
  rw [hf]
  dsimp only
  rw [List.drop_zero, tryParseFrame_frame c d rest h255]
  dsimp only
  rw [if_neg (by omega), hdrop]

theorem processBuffer_frame (c : Nat) (d rest : List Nat) (h255 : d.length ≤ 255) :
    processBuffer (encodeFrame c d ++ rest)
      = ((processBuffer rest).1, (c, d) :: (processBuffer rest).2) := by
  rw [processBuffer_next (processStep_frame c d rest h255)]
  simp

theorem processBuffer_encode (c : Nat) (d : List Nat) (h255 : d.length ≤ 255) :
    processBuffer (encodeFrame c d) = ([], [(c, d)]) := by
  have h := processBuffer_frame c d [] h255
  rw [List.append_nil] at h
  rw [h, processBuffer_nil]

theorem appendToBuffer_small {buf chunk : List Nat}
    (h : buf.length + chunk.length ≤ maxBufferSize) :
    appendToBuffer buf chunk = (buf ++ chunk, false) := by
  unfold appendToBuffer
  rw [if_neg (by omega)]

theorem feed_nil_encode (c : Nat) (d : List Nat) (h255 : d.length ≤ 255) :
    feed [] (encodeFrame c d) = ([], [(c, d)], false) := by
  unfold feed
  rw [appendToBuffer_small (by simp [encodeFrame_length, maxBufferSize]; omega)]
  dsimp only
  rw [List.nil_append, processBuffer_encode c d h255]

/-! ## Claim theorems -/

/-- C4: `calculateChecksum(cmdType, dataLen, data)` is the two's-complement
    negation of the byte-wise sum modulo 256: it equals
    `(256 - (cmdType + dataLen + sum data) % 256) % 256` (which is
    `(~(cmdType + dataLen + sum data) + 1) & 0xFF`), is always a byte,
    satisfies `(cmdType + dataLen + sum data + checksum) % 256 = 0`, and
    `calculateChecksum 0x0B 0 [] = 0xF5`.  It is a pure Lean function, hence
    deterministic: equal inputs give equal outputs definitionally. -/
theorem C4_checksum :
    (∀ (c L : Nat) (d : List Nat),
        calculateChecksum c L d = (256 - (c + L + d.sum) % 256) % 256) ∧
    (∀ (c L : Nat) (d : List Nat), calculateChecksum c L d < 256) ∧
    (∀ (c L : Nat) (d : List Nat), (c + L + d.sum + calculateChecksum c L d) % 256 = 0) ∧
    calculateChecksum 0x0B 0 [] = 0xF5 :=
  ⟨calculateChecksum_closed, calculateChecksum_lt, calculateChecksum_sum_mod, by decide⟩

/-- C1: for every command type in `0..255` and payload of at most 255 bytes,
    feeding the full encoded frame to a decoder with an empty accumulation
    buffer dispatches exactly one frame, carrying that command type and that
    exact payload (and leaves the buffer empty, with no overflow). -/
theorem C1_roundtrip (c : Nat) (d : List Nat) (hc : c < 256)
    (hd : ∀ b ∈ d, b < 256) (h255 : d.length ≤ 255) :
    feed [] (encodeFrame c d) = ([], [(c, d)], false) :=
  feed_nil_encode c d h255

/-- Witness for C1 at `cmdType = 0x0B`, payload `[1, 2]`. -/
theorem C1_roundtrip_witness :
    feed [] (encodeFrame 0x0B [1, 2]) = ([], [(0x0B, [1, 2])], false) :=
  C1_roundtrip 0x0B [1, 2] (by decide) (by decide) (by decide)

/-- C5 counterexample: dispatching a non-notification (command-acknowledgment)
    frame does NOT leave the statistics unchanged — `parseFrame` calls
    `updateStatistics` before classifying the frame (serial.js line 557), so
    an acknowledgment with `cmdType = 0x01` at `now = 10` from statistics
    `(0, 0, 0)` moves `lastUpdateTime` to `10` and `updateRate` to
    `round(1000/10) = 100`. -/
theorem C5_counterexample :
    (parseFrame 10 0x01 [] ⟨0, 0, 0⟩).1 = (⟨0, 10, 100⟩ : Stats) ∧
    (⟨0, 10, 100⟩ : Stats) ≠ (⟨0, 0, 0⟩ : Stats) := by
  constructor
  · decide
  · decide

/-- C5 (amended): `parseFrame` updates the statistics on EVERY validated
    frame, notification or not: `lastUpdateTime` becomes `now`; `updateRate`
    becomes `round(1000 / (now - lastUpdateTime))` when `now > lastUpdateTime`
    and is unchanged otherwise; `packetCount` grows by exactly 1 precisely
    when a notification payload is long enough to decode (sensor 0x20 with
    ≥ 31 bytes, mapping 0x21 with ≥ 61 bytes) and is unchanged on
    acknowledgment frames and on short notifications. -/
theorem C5_statistics (now c : Nat) (d : List Nat) (s : Stats) :
    (parseFrame now c d s).1.lastUpdateTime = now ∧
    (parseFrame now c d s).1.updateRate
      = (if s.lastUpdateTime < now then mathRound1000Over (now - s.lastUpdateTime)
         else s.updateRate) ∧
    (parseFrame now c d s).1.packetCount
      = s.packetCount
        + (if (c = CMD_SENSOR_DATA ∧ 31 ≤ d.length) ∨ (c = CMD_MAPPING_DATA ∧ 61 ≤ d.length)
           then 1 else 0) := by
  unfold parseFrame parseSensorDataFrame parseMappingDataFrame updateStatistics
  dsimp only
  split_ifs <;> simp_all [CMD_SENSOR_DATA, CMD_MAPPING_DATA] <;> omega

/-- C7: for every payload of at least 31 bytes, the sensor payload decoder
    emits a reading with `hand = payload[0]` and, for each `i < 15`,
    `joints[i] = payload[1+2i] | (payload[2+2i] << 8)` (little-endian u16,
    15 entries), incrementing `packetCount` and stamping the old count as
    `packetNumber`; in particular the payload with hand byte `0x00`, first
    pair `0x01, 0x00` and all remaining pairs zero decodes to hand `0`
    (right) with joints `[1, 0, ..., 0]`. -/
theorem C7_sensorDecode :
    (∀ (d : List Nat) (s : Stats), 31 ≤ d.length →
        parseSensorDataFrame d s
          = ({ s with packetCount := s.packetCount + 1 },
             [SerialEvent.sensorData (d.getD 0 0)
               ((List.range 15).map fun i =>
                 Nat.lor (d.getD (1 + 2 * i) 0) (Nat.shiftLeft (d.getD (2 + 2 * i) 0) 8))
               s.packetCount])) ∧
    parseSensorDataFrame (0 :: 1 :: List.replicate 29 0) ⟨0, 0, 0⟩
      = (⟨1, 0, 0⟩, [SerialEvent.sensorData 0 (1 :: List.replicate 14 0) 0]) := by
  constructor
  · intro d s h
    unfold parseSensorDataFrame
    rw [if_neg (by omega)]
    have hfn : (fun i => Nat.lor (d.getD (1 + i * 2) 0)
          (Nat.shiftLeft (d.getD (1 + i * 2 + 1) 0) 8))
        = (fun i => Nat.lor (d.getD (1 + 2 * i) 0)
            (Nat.shiftLeft (d.getD (2 + 2 * i) 0) 8)) := by
      funext i
      have e1 : 1 + i * 2 = 1 + 2 * i := by ring
      have e2 : 1 + i * 2 + 1 = 2 + 2 * i := by ring
      rw [e2, e1]
    rw [hfn]
  · decide

/-- Witness for C7: a concrete 31-byte payload of `7`s, decoded through the
    general clause. -/
theorem C7_sensorDecode_witness :
    31 ≤ (List.replicate 31 (7 : Nat)).length ∧
    parseSensorDataFrame (List.replicate 31 7) ⟨5, 0, 0⟩
      = ({ (⟨5, 0, 0⟩ : Stats) with packetCount := 5 + 1 },
         [SerialEvent.sensorData ((List.replicate 31 (7 : Nat)).getD 0 0)
           ((List.range 15).map fun i =>
             Nat.lor ((List.replicate 31 (7 : Nat)).getD (1 + 2 * i) 0)
               (Nat.shiftLeft ((List.replicate 31 (7 : Nat)).getD (2 + 2 * i) 0) 8))
           5]) :=
  ⟨by decide, C7_sensorDecode.1 (List.replicate 31 7) ⟨5, 0, 0⟩ (by decide)⟩

/-- C9: for every validated frame whose command type is neither 0x20 nor
    0x21, the first payload byte is the result code: when it is
    `RESULT_SUCCESS` the dispatcher routes `('ok', cmdType, payload[1..])`
    to the response sink, otherwise `('error', cmdType, payload[1..])`;
    an empty payload is treated as `RESULT_FAIL` with empty extra data and
    routed as an error, not rejected. -/
theorem C9_responseRouting (now c : Nat) (d : List Nat) (s : Stats)
    (h20 : c ≠ CMD_SENSOR_DATA) (h21 : c ≠ CMD_MAPPING_DATA) :
    (parseFrame now c d s).1 = updateStatistics now s ∧
    (d ≠ [] → d.getD 0 0 = RESULT_SUCCESS →
      (parseFrame now c d s).2 = [SerialEvent.responseOk c (d.drop 1)]) ∧
    (d ≠ [] → d.getD 0 0 ≠ RESULT_SUCCESS →
      (parseFrame now c d s).2 = [SerialEvent.responseError c (d.drop 1)]) ∧
    (d = [] → (parseFrame now c d s).2 = [SerialEvent.responseError c []]) := by
  unfold parseFrame
  rw [if_neg h20, if_neg h21]
  dsimp only
  refine ⟨?_, ?_, ?_, ?_⟩
  · split_ifs <;> rfl
  · intro hne h0
    have hlen : d.length > 0 := List.length_pos.mpr hne
    rw [if_pos hlen, if_pos h0]
    by_cases h1 : d.length > 1
    · rw [if_pos h1]
    · rw [if_neg h1, List.drop_eq_nil_of_le (by omega)]
  · intro hne h0
    have hlen : d.length > 0 := List.length_pos.mpr hne
    rw [if_pos hlen, if_neg h0]
    by_cases h1 : d.length > 1
    · rw [if_pos h1]
    · rw [if_neg h1, List.drop_eq_nil_of_le (by omega)]
  · intro hnil
    subst hnil
    rw [if_neg (by decide)]
    simp

/-- Witness for C9 at `cmdType = 0x0B` and the three payload shapes. -/
theorem C9_responseRouting_witness :
    (parseFrame 3 0x0B [0, 5] ⟨0, 0, 0⟩).2 = [SerialEvent.responseOk 0x0B [5]] ∧
    (parseFrame 3 0x0B [2] ⟨0, 0, 0⟩).2 = [SerialEvent.responseError 0x0B []] ∧
    (parseFrame 3 0x0B [] ⟨0, 0, 0⟩).2 = [SerialEvent.responseError 0x0B []] :=
  ⟨(C9_responseRouting 3 0x0B [0, 5] ⟨0, 0, 0⟩ (by decide) (by decide)).2.1
      (by decide) (by decide),
   (C9_responseRouting 3 0x0B [2] ⟨0, 0, 0⟩ (by decide) (by decide)).2.2.1
      (by decide) (by decide),
   (C9_responseRouting 3 0x0B [] ⟨0, 0, 0⟩ (by decide) (by decide)).2.2.2 rfl⟩

/-- C8: sensor notification payloads shorter than 31 bytes and mapping
    notification payloads shorter than 61 bytes are dropped without emitting
    any reading (the decoders are total Lean functions, so no out-of-bounds
    read or escaping exception is possible; the source guards every index
    behind the same length checks), and a subsequent valid frame in the same
    stream is still decoded and dispatched normally: the short notification
    contributes no events, only its statistics tick. -/
theorem C8_shortPayload :
    (∀ (d : List Nat) (s : Stats), d.length < 31 → parseSensorDataFrame d s = (s, [])) ∧
    (∀ (d : List Nat) (s : Stats), d.length < 61 → parseMappingDataFrame d s = (s, [])) ∧
    (∀ (now c2 : Nat) (d1 d2 : List Nat) (s : Stats),
      d1.length < 31 → d2.length ≤ 255 →
      feed [] (encodeFrame CMD_SENSOR_DATA d1 ++ encodeFrame c2 d2)
          = ([], [(CMD_SENSOR_DATA, d1), (c2, d2)], false) ∧
      dispatchFrames now s [(CMD_SENSOR_DATA, d1), (c2, d2)]
          = ((parseFrame now c2 d2 (updateStatistics now s)).1,
             (parseFrame now c2 d2 (updateStatistics now s)).2)) := by
  refine ⟨?_, ?_, ?_⟩
  · intro d s h
    unfold parseSensorDataFrame
    rw [if_pos h]
  · intro d s h
    unfold parseMappingDataFrame
    rw [if_pos h]
  · intro now c2 d1 d2 s h31 h255
    constructor
    · unfold feed
      rw [appendToBuffer_small
        (by simp [List.length_append, encodeFrame_length, maxBufferSize]; omega)]
      dsimp only
      rw [List.nil_append, processBuffer_frame CMD_SENSOR_DATA d1 _ (by omega),
        processBuffer_encode c2 d2 h255]
    · have hshort : parseFrame now CMD_SENSOR_DATA d1 s = (updateStatistics now s, []) := by
        unfold parseFrame
        rw [if_pos rfl]
        unfold parseSensorDataFrame
        rw [if_pos h31]
      simp [dispatchFrames, hshort]

/-- Witness for C8: a 1-byte sensor notification payload followed by a
    status acknowledgment frame. -/
theorem C8_shortPayload_witness :
    feed [] (encodeFrame CMD_SENSOR_DATA [9] ++ encodeFrame 0x0B [0])
        = ([], [(CMD_SENSOR_DATA, [9]), (0x0B, [0])], false) ∧
    dispatchFrames 4 ⟨0, 0, 0⟩ [(CMD_SENSOR_DATA, [9]), (0x0B, [0])]
        = ((parseFrame 4 0x0B [0] (updateStatistics 4 ⟨0, 0, 0⟩)).1,
           (parseFrame 4 0x0B [0] (updateStatistics 4 ⟨0, 0, 0⟩)).2) :=
  C8_shortPayload.2.2 4 0x0B [9] [0] ⟨0, 0, 0⟩ (by decide) (by decide)

/-- A strict prefix of an encoded frame is incomplete: `tryParseFrame`
    reports "wait for more data". -/
theorem tryParseFrame_take_frame (c : Nat) (d : List Nat) (h255 : d.length ≤ 255)
    (t : Nat) (hlt : t < 5 + d.length) :
    tryParseFrame ((encodeFrame c d).take t) = (0, none) := by
  by_cases h5 : t < 5
  · unfold tryParseFrame
    rw [if_pos]
    have h := List.length_take t (encodeFrame c d)
    simp only [MIN_FRAME_LEN]
    omega
  · obtain ⟨u, rfl⟩ : ∃ u, t = u + 3 := ⟨t - 3, by omega⟩
    set X := (d ++ [calculateChecksum c d.length d, FRAME_TAIL]).take u with hX
    have hshape : (encodeFrame c d).take (u + 3) = FRAME_HEADER :: c :: d.length :: X := rfl
    rw [hshape]
    have hlen : (FRAME_HEADER :: c :: d.length :: X).length = u + 3 := by
      simp only [List.length_cons, hX, List.length_take, List.length_append,
        List.length_cons, List.length_nil]
      omega
    have e2 : (FRAME_HEADER :: c :: d.length :: X).getD 2 0 = d.length := rfl
    unfold tryParseFrame
    dsimp only
    rw [e2, hlen]
    rw [if_neg (by simp only [MIN_FRAME_LEN]; omega)]
    rw [if_neg (by simp)]
    rw [if_neg (by omega)]
    rw [if_neg (by simp only [MAX_DATA_LENGTH, gt_iff_lt]; omega)]
    rw [if_pos (by omega)]

/-- On a nonempty strict prefix of an encoded frame the decoder loop exits,
    leaving the prefix untouched in the buffer. -/
theorem processStep_take_frame (c : Nat) (d : List Nat) (h255 : d.length ≤ 255)
    (t : Nat) (ht : 0 < t) (hlt : t < 5 + d.length) :
    processStep ((encodeFrame c d).take t) = .stop ((encodeFrame c d).take t) := by
  obtain ⟨v, rfl⟩ : ∃ v, t = v + 1 := ⟨t - 1, by omega⟩
  have hshape : (encodeFrame c d).take (v + 1)
      = FRAME_HEADER ::
          ((c :: d.length :: (d ++ [calculateChecksum c d.length d, FRAME_TAIL])).take v) := rfl
  have hf : findFrameStart ((encodeFrame c d).take (v + 1)) = some 0 := by
    rw [hshape]
    simp [findFrameStart]
  have hlen0 : ¬((encodeFrame c d).take (v + 1)).length = 0 := by
    have h := List.length_take (v + 1) (encodeFrame c d)
    rw [encodeFrame_length] at h
    omega
  unfold processStep
  rw [if_neg hlen0, hf]
  dsimp only
  rw [List.drop_zero, tryParseFrame_take_frame c d h255 (v + 1) hlt]
  rw [if_pos rfl]

theorem processBuffer_take_frame (c : Nat) (d : List Nat) (h255 : d.length ≤ 255)
    (t : Nat) (hlt : t < 5 + d.length) :
    processBuffer ((encodeFrame c d).take t) = ((encodeFrame c d).take t, []) := by
  rcases Nat.eq_zero_or_pos t with h0 | hpos
  · subst h0
    simp [processBuffer_nil]
  · exact processBuffer_stop (processStep_take_frame c d h255 t hpos hlt)

theorem feed_nil_nil : feed [] [] = ([], [], false) := by
  unfold feed
  rw [appendToBuffer_small (by simp [maxBufferSize])]
  dsimp only
  rw [List.append_nil, processBuffer_nil]

/-- Feeding only empty chunks from an empty buffer dispatches nothing. -/
theorem feedAll_flatten_nil (cs : List (List Nat)) (h : cs.flatten = []) :
    feedAll cs [] = ([], []) := by
  induction cs with
  | nil => rfl
  | cons ch cs ih =>
    rw [List.flatten_cons] at h
    obtain ⟨h1, h2⟩ := List.append_eq_nil.mp h
    subst h1
    unfold feedAll
    rw [feed_nil_nil]
    dsimp only
    rw [ih h2]
    rfl

/-- Feeding chunks that jointly complete an encoded frame, starting from a
    buffer that already holds a strict prefix of it, dispatches exactly that
    frame and empties the buffer. -/
theorem feedAll_segments (c : Nat) (d : List Nat) (h255 : d.length ≤ 255) :
    ∀ (cs : List (List Nat)) (t : Nat), t < 5 + d.length →
      cs.flatten = (encodeFrame c d).drop t →
      feedAll cs ((encodeFrame c d).take t) = ([], [(c, d)]) := by
  intro cs
  induction cs with
  | nil =>
    intro t ht hjoin
    exfalso
    have h := congrArg List.length hjoin
    simp only [List.flatten_nil, List.length_nil, List.length_drop,
      encodeFrame_length] at h
    omega
  | cons ch cs ih =>
    intro t ht hjoin
    rw [List.flatten_cons] at hjoin
    have hch : ch = ((encodeFrame c d).drop t).take ch.length := by
      have h := congrArg (List.take ch.length) hjoin
      rw [List.take_left] at h
      exact h
    have hcs : cs.flatten = (encodeFrame c d).drop (t + ch.length) := by
      have h := congrArg (List.drop ch.length) hjoin
      rw [List.drop_left, List.drop_drop] at h
      exact h
    have hlen_ch : t + ch.length ≤ 5 + d.length := by
      have h := congrArg List.length hjoin
      simp only [List.length_append, List.length_drop, encodeFrame_length] at h
      omega
    have htake : ((encodeFrame c d).take t).length = t := by
      have h := List.length_take t (encodeFrame c d)
      rw [encodeFrame_length] at h
      omega
    have hmerge : (encodeFrame c d).take t ++ ch = (encodeFrame c d).take (t + ch.length) := by
      conv_lhs => rw [hch]
      rw [← List.take_add]
    have happend : appendToBuffer ((encodeFrame c d).take t) ch
        = ((encodeFrame c d).take t ++ ch, false) := by
      apply appendToBuffer_small
      rw [htake]
      simp only [maxBufferSize]
      omega
    unfold feedAll feed
    rw [happend]
    dsimp only
    rw [hmerge]
    by_cases hfull : t + ch.length < 5 + d.length
    · rw [processBuffer_take_frame c d h255 _ hfull]
      dsimp only
      rw [ih (t + ch.length) hfull hcs]
      rfl
    · have heq : t + ch.length = 5 + d.length := by omega
      have hwhole : (encodeFrame c d).take (t + ch.length) = encodeFrame c d := by
        rw [heq, ← encodeFrame_length c d]
        exact List.take_length _
      rw [hwhole, processBuffer_encode c d h255]
      dsimp only
      rw [feedAll_flatten_nil cs (by
        rw [hcs, heq, ← encodeFrame_length c d]
        exact List.drop_length _)]
      rw [List.append_nil]

/-- C3: splitting an encoded frame into consecutive chunks (two or more) and
    feeding them in order to an initially empty decoder dispatches exactly the
    same single `(cmdType, payload)` frame as feeding the whole frame in one
    call. -/
theorem C3_chunkInvariance (c : Nat) (d : List Nat) (cs : List (List Nat))
    (hc : c < 256) (hd : ∀ b ∈ d, b < 256) (h255 : d.length ≤ 255)
    (h2 : 2 ≤ cs.length) (hjoin : cs.flatten = encodeFrame c d) :
    feedAll cs [] = ([], [(c, d)]) ∧
    feed [] (encodeFrame c d) = ([], [(c, d)], false) := by
  constructor
  · have h := feedAll_segments c d h255 cs 0 (by omega)
      (by rw [List.drop_zero]; exact hjoin)
    rw [List.take_zero] at h
    exact h
  · exact feed_nil_encode c d h255

/-- Witness for C3: the frame for `cmdType = 2`, payload `[7]`, split after
    the third byte. -/
theorem C3_chunkInvariance_witness :
    feedAll [[0xAA, 2, 1], [7, 246, 0x55]] [] = ([], [(2, [7])]) ∧
    feed [] (encodeFrame 2 [7]) = ([], [(2, [7])], false) :=
  C3_chunkInvariance 2 [7] [[0xAA, 2, 1], [7, 246, 0x55]]
    (by decide) (by decide) (by decide) (by decide) (by decide)

theorem processStep_next_length {buf b : List Nat} {f : Option (Nat × List Nat)}
    (h : processStep buf = .next b f) : b.length < buf.length := by
  unfold processStep at h
  by_cases h0 : buf.length = 0
  · simp [h0] at h
  · simp only [h0, if_false, ite_false] at h
    cases hf : findFrameStart buf with
    | none =>
      rw [hf] at h
      by_cases hlen : buf.length > maxBufferSize / 2 <;> simp [hlen] at h
    | some k =>
      rw [hf] at h
      simp only at h
      by_cases hr : (tryParseFrame (buf.drop k)).1 = 0
      · simp [hr] at h
      · simp only [hr, if_false, ite_false, StepResult.next.injEq] at h
        have hb : b = (buf.drop k).drop (tryParseFrame (buf.drop k)).1 := h.1.symm
        subst hb
        simp only [List.length_drop]
        omega

theorem findFrameStart_drop {buf : List Nat} {k : Nat}
    (h : findFrameStart buf = some k) :
    k < buf.length ∧ (buf.drop k).getD 0 0 = FRAME_HEADER := by
  induction buf generalizing k with
  | nil => simp [findFrameStart] at h
  | cons b rest ih =>
    simp only [findFrameStart] at h
    split at h
    · rename_i hb
      cases h
      exact ⟨by simp, by simpa using hb⟩
    · cases hk : findFrameStart rest with
      | none => rw [hk] at h; simp at h
      | some k0 =>
        rw [hk] at h
        simp at h
        obtain ⟨h1, h2⟩ := ih hk
        subst h
        exact ⟨by simp only [List.length_cons]; omega, by simpa using h2⟩

/-- When `tryParseFrame` answers "incomplete" on a buffer that starts with the
    header byte, that buffer holds fewer than `5 + 255` bytes. -/
theorem tryParseFrame_zero_bound {x : List Nat}
    (h : (tryParseFrame x).1 = 0) (hhead : x.getD 0 0 = FRAME_HEADER) :
    x.length ≤ 259 := by
  unfold tryParseFrame at h
  simp only [MIN_FRAME_LEN, MAX_DATA_LENGTH] at h
  split_ifs at h with h1 h2 h3 h4 h5 h6 h7
  all_goals try omega
  all_goals try exact absurd hhead h2
  all_goals try simp at h
  all_goals omega

theorem lastBytes_length (n : Nat) (l : List Nat) : (lastBytes n l).length ≤ n := by
  simp only [lastBytes, List.length_drop]
  omega

theorem processStep_stop_inv {buf b : List Nat} (h : processStep buf = .stop b) :
    (buf.length = 0 ∧ b = buf) ∨
    (findFrameStart buf = none ∧ buf.length > maxBufferSize / 2 ∧ b = lastBytes 10 buf) ∨
    (findFrameStart buf = none ∧ buf.length ≤ maxBufferSize / 2 ∧ b = buf) ∨
    (∃ k, findFrameStart buf = some k ∧ (tryParseFrame (buf.drop k)).1 = 0 ∧
      b = buf.drop k) := by
  unfold processStep at h
  by_cases h0 : buf.length = 0
  · rw [if_pos h0] at h
    injection h with hb
    exact Or.inl ⟨h0, hb.symm⟩
  · rw [if_neg h0] at h
    cases hf : findFrameStart buf with
    | none =>
      rw [hf] at h
      by_cases hlen : buf.length > maxBufferSize / 2
      · rw [if_pos hlen] at h
        injection h with hb
        exact Or.inr (Or.inl ⟨rfl, hlen, hb.symm⟩)
      · rw [if_neg hlen] at h
        injection h with hb
        exact Or.inr (Or.inr (Or.inl ⟨rfl, by omega, hb.symm⟩))
    | some k =>
      rw [hf] at h
      dsimp only at h
      by_cases hr : (tryParseFrame (buf.drop k)).1 = 0
      · rw [if_pos hr] at h
        injection h with hb
        exact Or.inr (Or.inr (Or.inr ⟨k, rfl, hr, hb.symm⟩))
      · rw [if_neg hr] at h
        cases h

theorem processStep_next_inv {buf b : List Nat} {f : Option (Nat × List Nat)}
    (h : processStep buf = .next b f) :
    ∃ k, findFrameStart buf = some k ∧
      (tryParseFrame (buf.drop k)).1 ≠ 0 ∧
      b = (buf.drop k).drop (tryParseFrame (buf.drop k)).1 ∧
      f = (tryParseFrame (buf.drop k)).2 := by
  unfold processStep at h
  by_cases h0 : buf.length = 0
  · rw [if_pos h0] at h
    cases h
  · rw [if_neg h0] at h
    cases hf : findFrameStart buf with
    | none =>
      rw [hf] at h
      by_cases hlen : buf.length > maxBufferSize / 2
      · rw [if_pos hlen] at h; cases h
      · rw [if_neg hlen] at h; cases h
    | some k =>
      rw [hf] at h
      dsimp only at h
      by_cases hr : (tryParseFrame (buf.drop k)).1 = 0
      · rw [if_pos hr] at h; cases h
      · rw [if_neg hr] at h
        injection h with hb hf2
        exact ⟨k, rfl, hr, hb.symm, hf2.symm⟩

/-- Whatever the input, the buffer left behind by the frame-extraction loop
    holds at most `maxBufferSize / 2` bytes. -/
theorem processBuffer_fst_length (buf : List Nat) :
    (processBuffer buf).1.length ≤ maxBufferSize / 2 := by
  generalize hn : buf.length = n
  induction n using Nat.strong_induction_on generalizing buf with
  | _ n ih =>
    cases hstep : processStep buf with
    | stop b =>
      rw [processBuffer_stop hstep]
      have h512 : maxBufferSize / 2 = 512 := rfl
      rcases processStep_stop_inv hstep with ⟨h0, rfl⟩ | ⟨-, -, rfl⟩ |
        ⟨-, hle, rfl⟩ | ⟨k, hk, hz, rfl⟩
      · dsimp only
        omega
      · dsimp only
        have := lastBytes_length 10 buf
        omega
      · exact hle
      · dsimp only
        obtain ⟨-, hhead⟩ := findFrameStart_drop hk
        have := tryParseFrame_zero_bound hz hhead
        omega
    | next b f =>
      rw [processBuffer_next hstep]
      dsimp only
      exact ih b.length (hn ▸ processStep_next_length hstep) b rfl

set_option maxRecDepth 8000 in
/-- C6 counterexample: an overflowing feed (512 buffered bytes plus a
    513-byte chunk) takes the overflow branch (`true` flag, console warning)
    but invokes no callback at all — in particular the error callback is NOT
    called: the dispatcher-level event list is empty. -/
theorem C6_counterexample :
    (feedEvents 0 (List.replicate 512 0) (List.replicate 513 0) ⟨0, 0, 0⟩).2.2
      = ([], true) := by
  have hstep : processStep (List.replicate 513 0) = .stop (List.replicate 10 0) := by
    decide
  have happ : appendToBuffer (List.replicate 512 0) (List.replicate 513 0)
      = (List.replicate 513 0, true) := by decide
  unfold feedEvents feed
  rw [happ]
  dsimp only
  rw [processBuffer_stop hstep]
  rfl

/-- C6 (amended): when appending a chunk would make the buffer exceed
    `maxBufferSize` (1024), the previously accumulated bytes are discarded
    (the post-append buffer is the new chunk alone) and the overflow branch is
    taken, which logs a console warning — the error callback is not invoked
    (it is only reachable from `catch` blocks).  After every feed the held
    buffer never exceeds the capacity bound (it is in fact at most
    `maxBufferSize / 2` bytes). -/
theorem C6_overflow :
    (∀ buf chunk : List Nat, buf.length + chunk.length > maxBufferSize →
        appendToBuffer buf chunk = (chunk, true)) ∧
    (∀ buf chunk : List Nat, (feed buf chunk).1.length ≤ maxBufferSize) := by
  constructor
  · intro buf chunk h
    unfold appendToBuffer
    rw [if_pos h, List.nil_append]
  · intro buf chunk
    unfold feed
    dsimp only
    have h := processBuffer_fst_length (appendToBuffer buf chunk).1
    have h512 : maxBufferSize / 2 = 512 := rfl
    have h1024 : maxBufferSize = 1024 := rfl
    omega

set_option maxRecDepth 8000 in
/-- Witness for C6 at the overflowing input of the counterexample. -/
theorem C6_overflow_witness :
    appendToBuffer (List.replicate 512 0) (List.replicate 513 0)
      = (List.replicate 513 0, true) ∧
    (feed (List.replicate 512 0) (List.replicate 513 0)).1.length ≤ maxBufferSize :=
  ⟨C6_overflow.1 _ _ (by decide),
   C6_overflow.2 (List.replicate 512 0) (List.replicate 513 0)⟩

theorem tryParseFrame_some {x : List Nat} {n : Nat} {c : Nat} {p : List Nat}
    (h : tryParseFrame x = (n, some (c, p))) :
    n = 5 + p.length ∧ n ≤ x.length := by
  unfold tryParseFrame at h
  dsimp only at h
  split_ifs at h with h1 h2 h3 h4 h5 h6 h7
  all_goals try exact Option.noConfusion (congrArg Prod.snd h)
  have hn := congrArg Prod.fst h
  have hsnd := Option.some.inj (congrArg Prod.snd h)
  have hp := congrArg Prod.snd hsnd
  dsimp only at hn hp
  have hplen : p.length = x.getD 2 0 := by
    rw [← hp]
    simp only [List.length_take, List.length_drop]
    omega
  omega

/-- C10 counterexample: in the buffer `[0x00, 0xAA, 0x01, 0x05]` the
    candidate frame at the header is incomplete (it declares 5 + 1 bytes but
    only 3 are buffered after the junk byte), yet the loop iteration does NOT
    leave the buffer entirely unchanged — the junk byte `0x00` before the
    header is discarded in the same iteration. -/
theorem C10_counterexample :
    findFrameStart [0x00, 0xAA, 0x01, 0x05] = some 1 ∧
    (tryParseFrame (([0x00, 0xAA, 0x01, 0x05] : List Nat).drop 1)).1 = 0 ∧
    processStep [0x00, 0xAA, 0x01, 0x05] = .stop [0xAA, 0x01, 0x05] ∧
    ([0xAA, 0x01, 0x05] : List Nat) ≠ [0x00, 0xAA, 0x01, 0x05] := by
  refine ⟨by decide, by decide, by decide, by decide⟩

/-- C10 (amended): every iteration of the frame-extraction loop makes
    progress or exits: (i) whenever the loop continues, the buffer strictly
    shrinks (so the loop terminates); (ii) when an iteration dispatches a
    frame `(c, p)`, it removes the junk before the header plus exactly the
    frame's `5 + p.length` bytes from the buffer's front; (iii) when the
    candidate at the header is merely incomplete, the iteration exits the
    loop keeping the candidate in full — the buffer retains exactly the
    bytes from the header onward (entirely unchanged when the header is
    already at the front). -/
theorem C10_loopStep (buf : List Nat) :
    (∀ (b : List Nat) (f : Option (Nat × List Nat)),
        processStep buf = .next b f → b.length < buf.length) ∧
    (∀ (b : List Nat) (c : Nat) (p : List Nat),
        processStep buf = .next b (some (c, p)) →
        ∃ k, findFrameStart buf = some k ∧
          tryParseFrame (buf.drop k) = (5 + p.length, some (c, p)) ∧
          b = buf.drop (k + (5 + p.length))) ∧
    (∀ k, findFrameStart buf = some k → (tryParseFrame (buf.drop k)).1 = 0 →
        processStep buf = .stop (buf.drop k)) := by
  refine ⟨?_, ?_, ?_⟩
  · intro b f h
    exact processStep_next_length h
  · intro b c p h
    obtain ⟨k, hk, hr, hb, hf⟩ := processStep_next_inv h
    rcases he : tryParseFrame (buf.drop k) with ⟨n2, o2⟩
    rw [he] at hf hb
    dsimp only at hf hb
    rw [← hf] at he
    obtain ⟨hn, -⟩ := tryParseFrame_some he
    subst hn
    refine ⟨k, hk, he, ?_⟩
    rw [hb, List.drop_drop]
  · intro k hk hz
    have hpos := (findFrameStart_drop hk).1
    unfold processStep
    rw [if_neg (by omega), hk]
    dsimp only
    rw [if_pos hz]

/-- Witness for C10: the incomplete-candidate clause applied to the
    counterexample's buffer. -/
theorem C10_loopStep_witness :
    processStep [0x00, 0xAA, 0x01, 0x05]
      = .stop (([0x00, 0xAA, 0x01, 0x05] : List Nat).drop 1) :=
  (C10_loopStep [0x00, 0xAA, 0x01, 0x05]).2.2 1 (by decide) (by decide)

theorem sum_set_add {l : List Nat} {i v : Nat} (h : i < l.length) :
    (l.set i v).sum + l.getD i 0 = l.sum + v := by
  induction l generalizing i with
  | nil => simp at h
  | cons a l ih =>
    cases i with
    | zero =>
      simp only [List.set_cons_zero, List.sum_cons, List.getD_cons_zero]
      omega
    | succ i =>
      have hh : i < l.length := by
        simp only [List.length_cons] at h
        omega
      have hrec := ih hh
      simp only [List.set_cons_succ, List.sum_cons, List.getD_cons_succ]
      omega

theorem calculateChecksum_set_ne (c L : Nat) {p : List Nat} {i v : Nat}
    (hi : i < p.length) (hv : v < 256) (ha : p.getD i 0 < 256)
    (hne : v ≠ p.getD i 0) :
    calculateChecksum c L (p.set i v) ≠ calculateChecksum c L p := by
  have hsum := sum_set_add (l := p) (i := i) (v := v) hi
  rw [calculateChecksum_closed, calculateChecksum_closed]
  intro heq
  omega

theorem flipBit_ne (b k : Nat) : flipBit b k ≠ b := by
  unfold flipBit
  intro h
  have h0 : b ^^^ (1 <<< k) = b ^^^ 0 := by rw [Nat.xor_zero]; exact h
  have h1 : (1 <<< k) = 0 := Nat.xor_right_injective h0
  have h2 : 0 < 1 <<< k := by
    rw [Nat.shiftLeft_eq, one_mul]
    positivity
  omega

theorem flipBit_lt {b k : Nat} (hb : b < 256) (hk : k < 8) : flipBit b k < 256 := by
  unfold flipBit
  have h256 : (256 : Nat) = 2 ^ 8 := by norm_num
  have h1 : (1 <<< k) < 2 ^ 8 := by
    rw [Nat.shiftLeft_eq, one_mul]
    calc 2 ^ k ≤ 2 ^ 7 := Nat.pow_le_pow_right (by norm_num) (by omega)
    _ < 2 ^ 8 := by norm_num
  rw [h256] at hb ⊢
  exact Nat.xor_lt_two_pow hb h1

/-- The frame-shaped buffer `[header, c, L, ...q, ckb, tb]` parses according
    to the tail and checksum checks alone once the structural checks pass. -/
theorem tryParseFrame_generic (c L : Nat) (q : List Nat) (ckb tb : Nat)
    (hq : q.length = L) (h255 : L ≤ 255) :
    tryParseFrame (FRAME_HEADER :: c :: L :: (q ++ [ckb, tb]))
      = if tb ≠ FRAME_TAIL then (1, none)
        else if calculateChecksum c L q ≠ ckb then (1, none)
        else (5 + L, some (c, q)) := by
  set t : List Nat := q ++ [ckb, tb] with hT
  have hlen : (FRAME_HEADER :: c :: L :: t).length = L + 5 := by
    simp [hT, List.length_append]
    omega
  have e0 : (FRAME_HEADER :: c :: L :: t).getD 0 0 = FRAME_HEADER := rfl
  have e1 : (FRAME_HEADER :: c :: L :: t).getD 1 0 = c := rfl
  have e2 : (FRAME_HEADER :: c :: L :: t).getD 2 0 = L := rfl
  have e3 : (FRAME_HEADER :: c :: L :: t).drop 3 = t := rfl
  have eck : (FRAME_HEADER :: c :: L :: t).getD (3 + L) 0 = ckb := by
    rw [Nat.add_comm 3 L]
    show t.getD L 0 = ckb
    rw [hT, List.getD_append_right q _ 0 L (by omega)]
    simp [hq]
  have etail : (FRAME_HEADER :: c :: L :: t).getD (3 + L + 1) 0 = tb := by
    have h : 3 + L + 1 = (L + 1) + 3 := by omega
    rw [h]
    show t.getD (L + 1) 0 = tb
    rw [hT, List.getD_append_right q _ 0 (L + 1) (by omega)]
    simp [hq]
  have edata : (t.take L) = q := by
    rw [hT, ← hq, List.take_left]
  unfold tryParseFrame
  dsimp only
  rw [e0, e1, e2, e3, eck, etail, hlen, edata]
  rw [if_neg (by simp only [MIN_FRAME_LEN]; omega)]
  rw [if_neg (by simp)]
  rw [if_neg (by omega)]
  rw [if_neg (by simp only [MAX_DATA_LENGTH, gt_iff_lt]; omega)]
  rw [if_neg (by omega)]

/-- Flipping any single bit of any payload byte or of the checksum byte of an
    encoded frame makes the checksum validation fail: `tryParseFrame` rejects
    the candidate and asks for single-byte resynchronization. -/
theorem tryParseFrame_corrupt (c : Nat) (p : List Nat) (i k : Nat)
    (hbytes : ∀ b ∈ p, b < 256) (h255 : p.length ≤ 255) (hi : i ≤ p.length)
    (hk : k < 8) :
    tryParseFrame (corruptAt (encodeFrame c p) (3 + i) k) = (1, none) := by
  set ck := calculateChecksum c p.length p with hck
  set t : List Nat := p ++ [ck, FRAME_TAIL] with hT
  have horig : (encodeFrame c p).getD (3 + i) 0 = t.getD i 0 := by
    rw [Nat.add_comm 3 i]
    rfl
  have hset : ∀ v, (encodeFrame c p).set (3 + i) v
      = FRAME_HEADER :: c :: p.length :: t.set i v := by
    intro v
    rw [Nat.add_comm 3 i]
    rfl
  unfold corruptAt
  rw [horig, hset]
  rcases Nat.lt_or_ge i p.length with hilt | hige
  · -- a payload byte is flipped: the received checksum no longer matches
    have htg : t.getD i 0 = p.getD i 0 := by
      rw [hT]
      exact List.getD_append p _ 0 i hilt
    have hts : t.set i (flipBit (t.getD i 0) k)
        = p.set i (flipBit (p.getD i 0) k) ++ [ck, FRAME_TAIL] := by
      rw [htg, hT]
      exact List.set_append_left _ _ hilt
    rw [hts]
    have hplt : p.getD i 0 < 256 := by
      have hmem : p.getD i 0 ∈ p := by
        rw [List.getD_eq_getElem p 0 hilt]
        exact List.getElem_mem _
      exact hbytes _ hmem
    rw [tryParseFrame_generic c p.length _ ck FRAME_TAIL
      (by rw [List.length_set]) h255]
    rw [if_neg (by simp)]
    rw [if_pos (by
      rw [hck]
      exact calculateChecksum_set_ne c p.length hilt
        (flipBit_lt hplt hk) hplt (flipBit_ne _ k))]
  · -- the checksum byte is flipped: it no longer matches the computed one
    have hieq : i = p.length := by omega
    subst hieq
    have htg : t.getD p.length 0 = ck := by
      rw [hT, List.getD_append_right p _ 0 p.length (by omega)]
      simp
    have hts : t.set p.length (flipBit (t.getD p.length 0) k)
        = p ++ [flipBit ck k, FRAME_TAIL] := by
      rw [htg, hT, List.set_append_right _ _ (le_refl p.length)]
      simp
    rw [hts]
    rw [tryParseFrame_generic c p.length p (flipBit ck k) FRAME_TAIL rfl h255]
    rw [if_neg (by simp)]
    rw [if_pos (by
      rw [hck]
      exact fun h => flipBit_ne ck k (h.symm))]

theorem corruptAt_frame_shape (c : Nat) (p : List Nat) (i k : Nat) :
    corruptAt (encodeFrame c p) (3 + i) k
      = FRAME_HEADER :: c :: p.length ::
          ((p ++ [calculateChecksum c p.length p, FRAME_TAIL]).set i
            (flipBit ((p ++ [calculateChecksum c p.length p, FRAME_TAIL]).getD i 0) k)) := by
  unfold corruptAt
  rw [Nat.add_comm 3 i]
  rfl

theorem corruptAt_length (c : Nat) (p : List Nat) (i k : Nat) :
    (corruptAt (encodeFrame c p) (3 + i) k).length = 5 + p.length := by
  unfold corruptAt
  rw [List.length_set, encodeFrame_length]

theorem processStep_corrupt (c : Nat) (p : List Nat) (i k : Nat)
    (hbytes : ∀ b ∈ p, b < 256) (h255 : p.length ≤ 255) (hi : i ≤ p.length)
    (hk : k < 8) :
    processStep (corruptAt (encodeFrame c p) (3 + i) k)
      = .next ((corruptAt (encodeFrame c p) (3 + i) k).drop 1) none := by
  have hlen := corruptAt_length c p i k
  have hf : findFrameStart (corruptAt (encodeFrame c p) (3 + i) k) = some 0 := by
    rw [corruptAt_frame_shape]
    simp [findFrameStart]
  unfold processStep
  rw [if_neg (by omega), hf]
  dsimp only
  rw [List.drop_zero, tryParseFrame_corrupt c p i k hbytes h255 hi hk]
  dsimp only
  rw [if_neg (by omega)]

/-- Every frame dispatched while processing a buffer fits inside it:
    `5 + payload.length ≤ buffer.length`. -/
theorem processBuffer_mem_length (buf : List Nat) :
    ∀ fr ∈ (processBuffer buf).2, 5 + fr.2.length ≤ buf.length := by
  generalize hn : buf.length = n
  induction n using Nat.strong_induction_on generalizing buf with
  | _ n ih =>
    cases hstep : processStep buf with
    | stop b =>
      rw [processBuffer_stop hstep]
      intro fr hfr
      simp at hfr
    | next b f =>
      rw [processBuffer_next hstep]
      intro fr hfr
      dsimp only at hfr
      rw [List.mem_append] at hfr
      rcases hfr with hfr | hfr
      · have hf : f = some fr := by
          cases f with
          | none => simp at hfr
          | some fr2 =>
            simp at hfr
            rw [hfr]
        obtain ⟨k, hk, hr0, hb, hfeq⟩ := processStep_next_inv hstep
        rw [hf] at hfeq
        rcases he : tryParseFrame (buf.drop k) with ⟨n2, o2⟩
        rw [he] at hfeq
        dsimp only at hfeq
        rcases fr with ⟨c, p⟩
        rw [← hfeq] at he
        obtain ⟨hn5, hle⟩ := tryParseFrame_some he
        have hd : (buf.drop k).length = buf.length - k := List.length_drop k buf
        dsimp only
        omega
      · have hlt := processStep_next_length hstep
        have := ih b.length (by omega) b rfl fr hfr
        omega

theorem findFrameStart_of_no_header {G : List Nat}
    (hG : ∀ g ∈ G, g ≠ FRAME_HEADER) (t : List Nat) :
    findFrameStart (G ++ FRAME_HEADER :: t) = some G.length := by
  induction G with
  | nil => simp [findFrameStart]
  | cons g G ih =>
    have hg : g ≠ FRAME_HEADER := hG g (by simp)
    simp only [List.cons_append, findFrameStart, if_neg hg]
    rw [show G.append (FRAME_HEADER :: t) = G ++ FRAME_HEADER :: t from rfl]
    rw [ih (fun x hx => hG x (by simp [hx]))]
    simp

theorem processStep_garbage (c : Nat) (d G : List Nat) (h255 : d.length ≤ 255)
    (hG : ∀ g ∈ G, g ≠ FRAME_HEADER) :
    processStep (G ++ encodeFrame c d) = .next [] (some (c, d)) := by
  have hf : findFrameStart (G ++ encodeFrame c d) = some G.length :=
    findFrameStart_of_no_header hG _
  have hdropG : (G ++ encodeFrame c d).drop G.length = encodeFrame c d :=
    List.drop_left _ _
  have hlen : (G ++ encodeFrame c d).length = G.length + (5 + d.length) := by
    simp [List.length_append, encodeFrame_length]
  have htp : tryParseFrame (encodeFrame c d) = (5 + d.length, some (c, d)) := by
    have h := tryParseFrame_frame c d [] h255
    rwa [List.append_nil] at h
  have hdropF : (encodeFrame c d).drop (5 + d.length) = [] := by
    rw [← encodeFrame_length c d]
    exact List.drop_length _
  unfold processStep
  rw [if_neg (by omega), hf]
  dsimp only
  rw [hdropG, htp]
  dsimp only
  rw [if_neg (by omega), hdropF]

theorem processBuffer_garbage (c : Nat) (d G : List Nat) (h255 : d.length ≤ 255)
    (hG : ∀ g ∈ G, g ≠ FRAME_HEADER) :
    processBuffer (G ++ encodeFrame c d) = ([], [(c, d)]) := by
  rw [processBuffer_next (processStep_garbage c d G h255 hG), processBuffer_nil]
  rfl

theorem appendToBuffer_nil_fst (chunk : List Nat) :
    (appendToBuffer [] chunk).1 = chunk := by
  unfold appendToBuffer
  split_ifs <;> simp

/-- C2 counterexample: the resync part of the claim is false for garbage
    that contains header bytes.  With garbage `G = [0xAA, 0x01, 0x05]` fed
    before the valid frame `encodeFrame 0x01 [] = [0xAA, 0x01, 0x00, 0xFF,
    0x55]`, the garbage header starts a candidate that declares a 5-byte
    payload, so the buffer (8 bytes) always looks incomplete: the decoder
    dispatches NOTHING — not the valid frame `(0x01, [])` — and discards
    nothing, waiting forever for more data. -/
theorem C2_counterexample :
    feedAll [[0xAA, 0x01, 0x05], encodeFrame 0x01 []] []
      = ([0xAA, 0x01, 0x05, 0xAA, 0x01, 0x00, 0xFF, 0x55], []) := by
  have h1 : processStep ([0xAA, 0x01, 0x05] : List Nat) = .stop [0xAA, 0x01, 0x05] := by
    decide
  have h2 : processStep ([0xAA, 0x01, 0x05, 0xAA, 0x01, 0x00, 0xFF, 0x55] : List Nat)
      = .stop [0xAA, 0x01, 0x05, 0xAA, 0x01, 0x00, 0xFF, 0x55] := by
    decide
  have henc : encodeFrame 0x01 [] = [0xAA, 0x01, 0x00, 0xFF, 0x55] := by decide
  rw [henc]
  unfold feedAll feed
  rw [appendToBuffer_small (by decide)]
  dsimp only
  rw [List.nil_append, processBuffer_stop h1]
  dsimp only
  unfold feedAll feed
  rw [appendToBuffer_small (by decide)]
  dsimp only
  rw [show ([0xAA, 0x01, 0x05] : List Nat) ++ [0xAA, 0x01, 0x00, 0xFF, 0x55]
      = [0xAA, 0x01, 0x05, 0xAA, 0x01, 0x00, 0xFF, 0x55] from rfl]
  rw [processBuffer_stop h2]
  unfold feedAll
  rfl

/-- C2 (amended): (i) flipping any single bit of any payload byte or of the
    checksum byte of an encoded frame yields a byte sequence from which the
    decoder never dispatches that frame's own `(cmdType, payload)` — the
    corrupted candidate fails checksum validation and every later candidate
    is too short to reproduce the payload (a *different, shorter* embedded
    frame may however be dispatched); (ii) for every garbage prefix `G` that
    contains no header byte `0xAA`, feeding `G` followed by a valid frame
    dispatches exactly that frame and discards the garbage.  (With `0xAA`
    inside the garbage, part (ii) fails: see the counterexample.) -/
theorem C2_corruptionResync :
    (∀ (c : Nat) (p : List Nat) (i k : Nat), c < 256 → (∀ b ∈ p, b < 256) →
        p.length ≤ 255 → i ≤ p.length → k < 8 →
        ∀ fr ∈ (processBuffer (corruptAt (encodeFrame c p) (3 + i) k)).2,
          fr ≠ (c, p)) ∧
    (∀ (c : Nat) (p G : List Nat), p.length ≤ 255 →
        (∀ g ∈ G, g ≠ FRAME_HEADER) →
        (feed [] (G ++ encodeFrame c p)).1 = [] ∧
        (feed [] (G ++ encodeFrame c p)).2.1 = [(c, p)]) := by
  constructor
  · intro c p i k hc hbytes h255 hi hk fr hfr
    have hstep := processStep_corrupt c p i k hbytes h255 hi hk
    rw [processBuffer_next hstep] at hfr
    dsimp only at hfr
    rw [Option.toList_none, List.nil_append] at hfr
    have hbound := processBuffer_mem_length
      ((corruptAt (encodeFrame c p) (3 + i) k).drop 1) fr hfr
    have hlen : ((corruptAt (encodeFrame c p) (3 + i) k).drop 1).length
        = 4 + p.length := by
      rw [List.length_drop, corruptAt_length]
      omega
    intro heq
    rw [heq] at hbound
    dsimp only at hbound
    omega
  · intro c p G h255 hG
    have h1 : (appendToBuffer [] (G ++ encodeFrame c p)).1 = G ++ encodeFrame c p :=
      appendToBuffer_nil_fst _
    unfold feed
    dsimp only
    rw [h1, processBuffer_garbage c p G h255 hG]
    exact ⟨rfl, rfl⟩

/-- Witness for C2: a junk byte `0x00` before the frame for `(0x0B, [1])`. -/
theorem C2_corruptionResync_witness :
    (feed [] ([0x00] ++ encodeFrame 0x0B [1])).1 = [] ∧
    (feed [] ([0x00] ++ encodeFrame 0x0B [1])).2.1 = [(0x0B, [1])] :=
  C2_corruptionResync.2 0x0B [1] [0x00] (by decide) (by decide)

end SerialSpec
